import Mathlib

/-!
Verification development for the AI-customer-robot repository.

The backend (`backend/src`) implements a ticket state machine, a QC
submission path, a knowledge-ingestion pipeline with a chunker, and a
retrieval-and-assist engine; the frontend (under `frontend/src`) calls
those operations over HTTP.  The backend sources are not part of the
checked-in tree here, so the backend behaviour is modelled from the
specification (each such definition carries a doc comment starting with
`Modelled from the spec:`).  Frontend logic that is present (the
knowledge-upload gate in `KnowledgePage.vue`) is embedded directly from
its source.
-/

namespace TicketSM

/-- Modelled from the spec: the ticket lifecycle states of §4.5
(`chatting` initial; `reviewed` terminal).  The backend state-machine
module is not in the checked-in sources. -/
inductive Status where
  | chatting
  | pending
  | handling
  | resolved
  | closed
  | reviewed
  deriving DecidableEq, Repr

/-- Modelled from the spec: a ticket row; only the fields the verified
claims touch are carried (`id`, `status`, `agent_id`). -/
structure Ticket where
  id : Nat
  status : Status
  agent_id : Option Nat
  deriving DecidableEq, Repr

/-- Modelled from the spec: the error taxonomy of §7 restricted to the
cases the claims exercise. -/
inductive TError where
  | invalidTransition (src tgt : Status)
  | conflict
  | sendRejected (src : Status)
  deriving DecidableEq, Repr

/-- Modelled from the spec: the transition table of §4.5 —
chatting→pending, chatting→resolved, pending→handling,
handling→closed, closed→reviewed. -/
def transitionTable : List (Status × Status) :=
  [(Status.chatting, Status.pending),
   (Status.chatting, Status.resolved),
   (Status.pending, Status.handling),
   (Status.handling, Status.closed),
   (Status.closed, Status.reviewed)]

/-- Table-driven legality check: a pair is legal iff it occurs in
`transitionTable`. -/
def isLegal (s t : Status) : Bool :=
  transitionTable.contains (s, t)

/-- Modelled from the spec: the table-driven validator of §4.5.  A legal
pair updates the status; anything else is rejected with an
invalid-transition error and nothing is written. -/
def tryTransition (tk : Ticket) (target : Status) : Except TError Ticket :=
  if isLegal tk.status target then
    Except.ok { tk with status := target }
  else
    Except.error (TError.invalidTransition tk.status target)

/-- The stored ticket after an attempted transition: the updated row on
success, the untouched row on rejection (no partial application). -/
def stepStatus (tk : Ticket) (target : Status) : Ticket :=
  match tryTransition tk target with
  | Except.ok tk2 => tk2
  | Except.error _ => tk

/-- Independent enumeration of the five legal pairs, written out
case-by-case (not via the table), used to state the claims. -/
def legalPairEnum (s t : Status) : Bool :=
  match s, t with
  | Status.chatting, Status.pending => true
  | Status.chatting, Status.resolved => true
  | Status.pending, Status.handling => true
  | Status.handling, Status.closed => true
  | Status.closed, Status.reviewed => true
  | _, _ => false

/-- Modelled from the spec: a quality-control score record
(`backend/src` QC repository is not in the checked-in sources); the
fields mirror `QCResult` in `frontend/src/services/qc.ts`. -/
structure QCResult where
  accuracy_score : Nat
  compliance_score : Nat
  resolution_score : Nat
  comment : Option String
  deriving DecidableEq, Repr

/-- Modelled from the spec: a ticket together with its at-most-one QC
record. -/
structure QCState where
  ticket : Ticket
  qc : Option QCResult
  deriving DecidableEq, Repr

/-- Modelled from the spec: a QC submission triggers the
`closed → reviewed` transition; the at-most-one-QC-result invariant is
enforced by the transition itself (a second submission finds the ticket
in `reviewed`, which has no outgoing transition). -/
def submitQC (s : QCState) (r : QCResult) : Except TError QCState :=
  match tryTransition s.ticket Status.reviewed with
  | Except.ok tk2 => Except.ok { ticket := tk2, qc := some r }
  | Except.error e => Except.error e

/-- Modelled from the spec: an agent accepting a ticket under the §5
per-ticket compare-and-set discipline.  The caller acts on the status it
observed; if the row's current status no longer matches, the caller lost
the race and gets a `ConflictError`; otherwise the `pending → handling`
transition is validated and `agent_id` is set atomically with it. -/
def accept (tk : Ticket) (observed : Status) (agent : Nat) : Except TError Ticket :=
  if tk.status = observed then
    match tryTransition tk Status.handling with
    | Except.ok tk2 => Except.ok { tk2 with agent_id := some agent }
    | Except.error e => Except.error e
  else
    Except.error TError.conflict

/-- Modelled from the spec: two accept calls racing on the same ticket,
both having observed `pending`.  Per-ticket mutual exclusion (§5)
serialises them: the first call runs against `tk`, the second against
whatever the first left behind.  Returns the two callers' outcomes. -/
def raceAccept (tk : Ticket) (a b : Nat) :
    Except TError Ticket × Except TError Ticket :=
  match accept tk Status.pending a with
  | Except.ok tk1 => (Except.ok tk1, accept tk1 Status.pending b)
  | Except.error e => (Except.error e, accept tk Status.pending b)

/-- Modelled from the spec: message roles (§3). -/
inductive Role where
  | user
  | ai
  | agent
  deriving DecidableEq, Repr

/-- Modelled from the spec: a message row restricted to the fields the
claims touch. -/
structure Msg where
  role : Role
  content : String
  deriving DecidableEq, Repr

/-- Modelled from the spec: a conversation — one ticket and its
append-only message list. -/
structure Conv where
  ticket : Ticket
  msgs : List Msg
  deriving DecidableEq, Repr

/-- Message-send eligibility, derived from state (§4.5): only `chatting`
and `handling` permit new messages. -/
def canSend (s : Status) : Bool :=
  s = Status.chatting || s = Status.handling

/-- Modelled from the spec: sending a message on a ticket.  In
`chatting` the user message is appended and an AI auto-reply (text
`aiReply`, produced by the retrieval engine) is appended with it; in
`handling` the message is appended directly with no AI turn; every other
state rejects the send with an invalid-transition error. -/
def sendMessage (c : Conv) (sender : Role) (content aiReply : String) :
    Except TError Conv :=
  match c.ticket.status with
  | Status.chatting =>
      Except.ok { c with msgs := c.msgs ++ [⟨sender, content⟩, ⟨Role.ai, aiReply⟩] }
  | Status.handling =>
      Except.ok { c with msgs := c.msgs ++ [⟨sender, content⟩] }
  | s => Except.error (TError.sendRejected s)

end TicketSM

namespace Knowledge

/-- Modelled from the spec: document lifecycle status (§3), mirrored by
`KnowledgeDoc.status` in `frontend/src/services/knowledge.ts`
(`processing | ready | failed`). -/
inductive DocStatus where
  | processing
  | ready
  | failed
  deriving DecidableEq, Repr

/-- Modelled from the spec: the operations that may touch a document's
status after creation.  The ingestion pipeline is the only mutator
(§4.3): it finalises a run as `ready` (step 5) or `failed` (failure
path); reads and count updates leave the status alone. -/
inductive DocOp where
  | finishReady
  | finishFailed
  | updateCounts (chunk_count qa_count : Nat)
  deriving DecidableEq, Repr

/-- Modelled from the spec: one status update.  Finalisation applies
only to a `processing` document; a terminal status (`ready`/`failed`) is
never rewritten (§3 invariant: status is monotonic and never reverts). -/
def docStep (s : DocStatus) (op : DocOp) : DocStatus :=
  match s, op with
  | DocStatus.processing, DocOp.finishReady => DocStatus.ready
  | DocStatus.processing, DocOp.finishFailed => DocStatus.failed
  | s, _ => s

/-- Modelled from the spec: a chunk row (§3) restricted to the fields
deletion touches. -/
structure ChunkRow where
  id : Nat
  document_id : Nat
  deriving DecidableEq, Repr

/-- Modelled from the spec: a QA-pair row (§3) restricted to the fields
deletion touches. -/
structure QARow where
  id : Nat
  document_id : Nat
  deriving DecidableEq, Repr

/-- Modelled from the spec: a vector-index entry tagged with its owning
document (§4.3 step 4 tags both namespaces with `document_id`). -/
structure IndexEntry where
  id : Nat
  document_id : Nat
  deriving DecidableEq, Repr

/-- Modelled from the spec: a document record. -/
structure DocRow where
  id : Nat
  status : DocStatus
  deriving DecidableEq, Repr

/-- Modelled from the spec: the persisted knowledge-base state —
documents, their chunks and QA pairs, and the two vector-index
namespaces (`chunks`, `qa_questions`). -/
structure Store where
  docs : List DocRow
  chunks : List ChunkRow
  qaPairs : List QARow
  chunkIndex : List IndexEntry
  qaIndex : List IndexEntry
  deriving DecidableEq, Repr

/-- Modelled from the spec: `delete(id)` cascades — it removes the
document row and every chunk, QA pair and vector-index entry (in both
namespaces) owned by that document; deleting an absent id removes
nothing and is not an error (§4.2, §6, §8). -/
def deleteDocument (docId : Nat) (st : Store) : Store :=
  { docs := st.docs.filter (fun d => d.id ≠ docId),
    chunks := st.chunks.filter (fun c => c.document_id ≠ docId),
    qaPairs := st.qaPairs.filter (fun q => q.document_id ≠ docId),
    chunkIndex := st.chunkIndex.filter (fun e => e.document_id ≠ docId),
    qaIndex := st.qaIndex.filter (fun e => e.document_id ≠ docId) }

end Knowledge

namespace Chunker

/-- Modelled from the spec: the chunker's splitting loop (§4.1).  Text
is modelled as a list of characters (the spec's "never inside a
multi-byte character" makes the character, not the byte, the splitting
unit).  The recursion emits a window of at most `maxLen` characters and
advances by `maxLen - overlap`, so adjacent chunks share `overlap`
characters; `fuel` bounds the recursion and is instantiated with the
text length. -/
def chunkAux (maxLen overlap : Nat) : Nat → List Char → List (List Char)
  | 0, _ => []
  | fuel + 1, l =>
      if l = [] then []
      else if l.length ≤ maxLen then [l]
      else l.take maxLen :: chunkAux maxLen overlap fuel (l.drop (maxLen - overlap))

/-- Modelled from the spec: `chunk(text, max_len, overlap)` (§4.1).
Empty or whitespace-only input yields zero chunks (not an error);
otherwise the text is cut into bounded overlapping windows. -/
def chunk (maxLen overlap : Nat) (text : List Char) : List (List Char) :=
  if text.all Char.isWhitespace then []
  else chunkAux maxLen overlap text.length text

/-- Reassembly of a chunk sequence: the first chunk whole, each later
chunk minus its first `overlap` characters (the part duplicated from its
predecessor). -/
def unchunk (overlap : Nat) : List (List Char) → List Char
  | [] => []
  | c :: rest => c ++ (rest.map (List.drop overlap)).flatten

end Chunker

namespace Assist

/-- Modelled from the spec: a top-1 hit from the `qa_questions`
namespace — the stored QA pair plus its (rescaled, §4.4) similarity
score.  Scores are rationals in `[0, 1]`. -/
structure QAHit where
  source_id : Nat
  question : String
  answer : String
  score : ℚ
  deriving DecidableEq, Repr

/-- Modelled from the spec: a hit from the `chunks` namespace. -/
structure ChunkHit where
  source_id : Nat
  content : String
  score : ℚ
  deriving DecidableEq, Repr

/-- A cited source; mirrors the `sources` element of `AssistResult` in
`frontend/src/services/agent.ts`. -/
structure Source where
  content : String
  score : ℚ
  source_type : String
  source_id : Nat
  deriving DecidableEq, Repr

/-- Mirrors `AssistResult` in `frontend/src/services/agent.ts`. -/
structure AssistResult where
  intent : String
  confidence : ℚ
  keywords : List String
  suggestion : String
  sources : List Source
  deriving DecidableEq, Repr

/-- The assist outcome together with a flag recording whether the
`chunks` namespace was searched (for the short-circuit claim). -/
structure AssistOutcome where
  result : AssistResult
  chunkSearchPerformed : Bool
  deriving DecidableEq, Repr

/-- The fixed low-confidence reply used when no chunk qualifies. -/
def noMatchMsg : String := "暂未找到相关信息"

/-- A chunk hit cited as a source. -/
def chunkSource (c : ChunkHit) : Source :=
  ⟨c.content, c.score, "chunk", c.source_id⟩

/-- A QA hit cited as a source. -/
def qaSource (h : QAHit) : Source :=
  ⟨h.answer, h.score, "qa", h.source_id⟩

/-- Modelled from the spec: the chunk-search fallback (§4.4 steps 3–4).
`chunkHits` is the ranked top-K result of searching `chunks`; entries
below `minScore` are dropped; zero survivors give the low-confidence
no-match result, otherwise the LLM composes the suggestion (`gen`) and
the survivors are cited ranked by score, confidence being the top
score. -/
def chunkFallback (minScore : ℚ) (gen : List ChunkHit → String)
    (intent : String) (keywords : List String)
    (chunkHits : List ChunkHit) : AssistResult :=
  match chunkHits.filter (fun c => minScore ≤ c.score) with
  | [] => ⟨intent, 0, keywords, noMatchMsg, []⟩
  | c :: cs => ⟨intent, c.score, keywords, gen (c :: cs), (c :: cs).map chunkSource⟩

/-- Modelled from the spec: `assist` (§4.4).  The backend retrieval
engine is not in the checked-in sources, so the two vector searches are
abstracted: `qaTop` is the top-1 result of searching `qa_questions`
(ranked by the §4.2 contract) and `chunkHits` the ranked top-K result
the `chunks` search would return if consulted.  A QA hit at or above
`qaThreshold` is authoritative and short-circuits (no chunk search);
otherwise the chunk fallback runs.  Intent and keywords are computed
independently of the branch and attached to every result. -/
def assist (qaThreshold minScore : ℚ) (gen : List ChunkHit → String)
    (intent : String) (keywords : List String)
    (qaTop : Option QAHit) (chunkHits : List ChunkHit) : AssistOutcome :=
  match qaTop with
  | some h =>
      if qaThreshold ≤ h.score then
        ⟨⟨intent, h.score, keywords, h.answer, [qaSource h]⟩, false⟩
      else
        ⟨chunkFallback minScore gen intent keywords chunkHits, true⟩
  | none => ⟨chunkFallback minScore gen intent keywords chunkHits, true⟩

/-- The query takes the chunk-search fallback: there is no QA hit at or
above the acceptance threshold. -/
def takesFallback (qaThreshold : ℚ) (qaTop : Option QAHit) : Prop :=
  ∀ h, qaTop = some h → h.score < qaThreshold

end Assist

namespace Upload

/-- Outcome of the knowledge-upload entry point: the user-visible error
message, if any, and whether the upload HTTP request was issued. -/
structure UploadAttempt where
  uploadError : Option String
  requestIssued : Bool
  deriving DecidableEq, Repr

/-- Embedded from `KnowledgePage.vue` (`doUpload`): a file whose name
does not end in `.md` sets the error message and returns before
`uploadDocument` is called; only a `.md` name reaches the network
request.  Filenames are modelled as character lists; the suffix test is
JavaScript's `String.prototype.endsWith`. -/
def doUpload (filename : List Char) : UploadAttempt :=
  if ¬ (['.', 'm', 'd'].isSuffixOf filename) then
    { uploadError := some "仅支持 .md 格式文件", requestIssued := false }
  else
    { uploadError := none, requestIssued := true }

end Upload


/-! ## Theorems -/

namespace TicketSM

/-- C1: for every ticket and attempted status change, the change
succeeds iff the pair (current status, target status) is one of
chatting→pending, chatting→resolved, pending→handling, handling→closed,
closed→reviewed; any other pair is rejected with an invalid-transition
error and the stored ticket is left unchanged. -/
theorem transition_validator_correct (tk : Ticket) (target : Status) :
    ((tryTransition tk target).isOk = true ↔ legalPairEnum tk.status target = true) ∧
    (legalPairEnum tk.status target = true →
      tryTransition tk target = Except.ok { tk with status := target }) ∧
    (legalPairEnum tk.status target = false →
      tryTransition tk target = Except.error (TError.invalidTransition tk.status target) ∧
        stepStatus tk target = tk) := by
  obtain ⟨i, s, a⟩ := tk
  cases s <;> cases target <;>
    simp [tryTransition, stepStatus, isLegal, transitionTable, legalPairEnum, Except.isOk,
      Except.toBool]

/-- C1 witness: a legal pair applied and an illegal pair rejected, at
concrete tickets. -/
theorem transition_validator_correct_witness :
    tryTransition ⟨7, Status.pending, none⟩ Status.handling =
      Except.ok ⟨7, Status.handling, none⟩ ∧
    (tryTransition ⟨7, Status.resolved, none⟩ Status.pending =
        Except.error (TError.invalidTransition Status.resolved Status.pending) ∧
      stepStatus ⟨7, Status.resolved, none⟩ Status.pending = ⟨7, Status.resolved, none⟩) :=
  ⟨(transition_validator_correct ⟨7, Status.pending, none⟩ Status.handling).2.1 (by decide),
   (transition_validator_correct ⟨7, Status.resolved, none⟩ Status.pending).2.2 (by decide)⟩

/-- C2: for a ticket in state `closed`, the first QC submission
succeeds, moving it to `reviewed` and recording the single QC result;
any second submission for the same ticket is rejected. -/
theorem qc_submission_at_most_once (s : QCState) (r : QCResult)
    (h : s.ticket.status = Status.closed) :
    ∃ s2, submitQC s r = Except.ok s2 ∧
      s2.ticket.status = Status.reviewed ∧ s2.qc = some r ∧
      ∀ r2, submitQC s2 r2 =
        Except.error (TError.invalidTransition Status.reviewed Status.reviewed) := by
  obtain ⟨⟨i, st, a⟩, q⟩ := s
  simp only [Ticket.status] at h
  subst h
  exact ⟨⟨⟨i, Status.reviewed, a⟩, some r⟩, rfl, rfl, rfl, fun r2 => rfl⟩

/-- C2 witness: first submission accepted, second rejected, on a
concrete closed ticket. -/
theorem qc_submission_at_most_once_witness :
    ∃ s2, submitQC ⟨⟨3, Status.closed, some 9⟩, none⟩ ⟨5, 4, 5, none⟩ = Except.ok s2 ∧
      s2.ticket.status = Status.reviewed ∧ s2.qc = some ⟨5, 4, 5, none⟩ ∧
      ∀ r2, submitQC s2 r2 =
        Except.error (TError.invalidTransition Status.reviewed Status.reviewed) :=
  qc_submission_at_most_once ⟨⟨3, Status.closed, some 9⟩, none⟩ ⟨5, 4, 5, none⟩ rfl

/-- C3: two accept calls racing on the same `pending` ticket, serialised
by the per-ticket critical section, produce exactly one winner — the
ticket ends in `handling` with the winner's `agent_id` set atomically —
while the loser receives a `ConflictError`. -/
theorem race_accept_one_winner (tk : Ticket) (a b : Nat)
    (h : tk.status = Status.pending) :
    raceAccept tk a b =
      (Except.ok ⟨tk.id, Status.handling, some a⟩, Except.error TError.conflict) := by
  obtain ⟨i, st, ag⟩ := tk
  simp only [Ticket.status] at h
  subst h
  rfl

/-- C3 witness: a concrete race on a pending ticket. -/
theorem race_accept_one_winner_witness :
    raceAccept ⟨11, Status.pending, none⟩ 1 2 =
      (Except.ok ⟨11, Status.handling, some 1⟩, Except.error TError.conflict) :=
  race_accept_one_winner ⟨11, Status.pending, none⟩ 1 2 rfl

/-- C6: sending a message is permitted iff the ticket is in `chatting`
(where an AI auto-reply is appended with it) or `handling` (direct, no
AI turn); a send in any other status is rejected. -/
theorem send_eligibility (c : Conv) (sender : Role) (content aiReply : String) :
    ((sendMessage c sender content aiReply).isOk = true ↔
      (c.ticket.status = Status.chatting ∨ c.ticket.status = Status.handling)) ∧
    (c.ticket.status = Status.chatting →
      sendMessage c sender content aiReply =
        Except.ok { c with msgs := c.msgs ++ [⟨sender, content⟩, ⟨Role.ai, aiReply⟩] }) ∧
    (c.ticket.status = Status.handling →
      sendMessage c sender content aiReply =
        Except.ok { c with msgs := c.msgs ++ [⟨sender, content⟩] }) ∧
    (¬ (c.ticket.status = Status.chatting ∨ c.ticket.status = Status.handling) →
      sendMessage c sender content aiReply =
        Except.error (TError.sendRejected c.ticket.status)) := by
  obtain ⟨⟨i, st, ag⟩, msgs⟩ := c
  cases st <;> simp [sendMessage, Except.isOk, Except.toBool]

/-- C6 witness: a chatting send appends the AI auto-reply; a closed send
is rejected; both at concrete conversations. -/
theorem send_eligibility_witness :
    sendMessage ⟨⟨1, Status.chatting, none⟩, []⟩ Role.user "hi" "re" =
      Except.ok ⟨⟨1, Status.chatting, none⟩, [⟨Role.user, "hi"⟩, ⟨Role.ai, "re"⟩]⟩ ∧
    sendMessage ⟨⟨1, Status.closed, none⟩, []⟩ Role.user "hi" "re" =
      Except.error (TError.sendRejected Status.closed) :=
  ⟨(send_eligibility ⟨⟨1, Status.chatting, none⟩, []⟩ Role.user "hi" "re").2.1 rfl,
   (send_eligibility ⟨⟨1, Status.closed, none⟩, []⟩ Role.user "hi" "re").2.2.2 (by simp)⟩

end TicketSM

namespace Knowledge

/-- Helper: `ready` is a fixed point of every document operation. -/
theorem docStep_ready_fixed (op : DocOp) : docStep DocStatus.ready op = DocStatus.ready := by
  cases op <;> rfl

/-- Helper: `failed` is a fixed point of every document operation. -/
theorem docStep_failed_fixed (op : DocOp) : docStep DocStatus.failed op = DocStatus.failed := by
  cases op <;> rfl

/-- C7: a document's status is monotonic — any single operation either
leaves the status unchanged or finalises a `processing` document to
`ready` or `failed`; and once the status is `ready` or `failed`, no
sequence of subsequent operations ever changes it. -/
theorem doc_status_monotonic (s : DocStatus) (op : DocOp) (ops : List DocOp) :
    (docStep s op = s ∨
      (s = DocStatus.processing ∧
        (docStep s op = DocStatus.ready ∨ docStep s op = DocStatus.failed))) ∧
    ((s = DocStatus.ready ∨ s = DocStatus.failed) → ops.foldl docStep s = s) := by
  constructor
  · cases s <;> cases op <;> simp [docStep]
  · rintro (rfl | rfl) <;>
      induction ops with
      | nil => rfl
      | cons op2 ops2 ih =>
          simp only [List.foldl_cons, docStep_ready_fixed, docStep_failed_fixed]
          exact ih

/-- C7 witness: a terminal `ready` status survives a concrete sequence
of later operations, including attempted finalisations. -/
theorem doc_status_monotonic_witness :
    [DocOp.finishFailed, DocOp.updateCounts 2 3, DocOp.finishReady].foldl
      docStep DocStatus.ready = DocStatus.ready :=
  (doc_status_monotonic DocStatus.ready DocOp.finishFailed
    [DocOp.finishFailed, DocOp.updateCounts 2 3, DocOp.finishReady]).2 (Or.inl rfl)

/-- Helper: filtering twice with the same predicate equals filtering
once. -/
theorem filter_self_idem {α : Type} (p : α → Bool) (l : List α) :
    (l.filter p).filter p = l.filter p :=
  List.filter_eq_self.mpr (fun _ ha => (List.mem_filter.mp ha).2)

/-- C8: deleting a document cascades — afterwards no document row,
chunk, QA pair, or vector-index entry (in either namespace) of that
document id remains — and deletion is idempotent: a second delete of the
same id is a no-op producing the same end state. -/
theorem delete_document_cascades_idempotent (docId : Nat) (st : Store) :
    deleteDocument docId (deleteDocument docId st) = deleteDocument docId st ∧
    (∀ d ∈ (deleteDocument docId st).docs, d.id ≠ docId) ∧
    (∀ c ∈ (deleteDocument docId st).chunks, c.document_id ≠ docId) ∧
    (∀ q ∈ (deleteDocument docId st).qaPairs, q.document_id ≠ docId) ∧
    (∀ e ∈ (deleteDocument docId st).chunkIndex, e.document_id ≠ docId) ∧
    (∀ e ∈ (deleteDocument docId st).qaIndex, e.document_id ≠ docId) := by
  refine ⟨?_, ?_, ?_, ?_, ?_, ?_⟩
  · simp only [deleteDocument, filter_self_idem]
  all_goals
    intro x hx
    simp only [deleteDocument, List.mem_filter, decide_eq_true_eq] at hx
    exact hx.2

/-- C8 witness: on a concrete store, the second delete yields the same
state as the first, and a surviving chunk of another document is not the
deleted one's. -/
theorem delete_document_cascades_idempotent_witness :
    deleteDocument 1 (deleteDocument 1
        ⟨[⟨1, DocStatus.ready⟩, ⟨2, DocStatus.ready⟩],
         [⟨10, 1⟩, ⟨11, 2⟩], [⟨20, 1⟩], [⟨10, 1⟩, ⟨11, 2⟩], [⟨20, 1⟩]⟩) =
      deleteDocument 1
        ⟨[⟨1, DocStatus.ready⟩, ⟨2, DocStatus.ready⟩],
         [⟨10, 1⟩, ⟨11, 2⟩], [⟨20, 1⟩], [⟨10, 1⟩, ⟨11, 2⟩], [⟨20, 1⟩]⟩ ∧
    (2 : Nat) ≠ 1 :=
  ⟨(delete_document_cascades_idempotent 1
      ⟨[⟨1, DocStatus.ready⟩, ⟨2, DocStatus.ready⟩],
       [⟨10, 1⟩, ⟨11, 2⟩], [⟨20, 1⟩], [⟨10, 1⟩, ⟨11, 2⟩], [⟨20, 1⟩]⟩).1,
   (delete_document_cascades_idempotent 1
      ⟨[⟨1, DocStatus.ready⟩, ⟨2, DocStatus.ready⟩],
       [⟨10, 1⟩, ⟨11, 2⟩], [⟨20, 1⟩], [⟨10, 1⟩, ⟨11, 2⟩], [⟨20, 1⟩]⟩).2.2.1
     ⟨11, 2⟩ (by decide)⟩

end Knowledge

namespace Chunker

/-- Helper: every window the splitting loop emits is at most `maxLen`
characters long. -/
theorem chunkAux_length_le (maxLen overlap fuel : Nat) :
    ∀ (l : List Char), ∀ c ∈ chunkAux maxLen overlap fuel l, c.length ≤ maxLen := by
  induction fuel with
  | zero => intro l c hc; simp [chunkAux] at hc
  | succ fuel ih =>
      intro l c hc
      by_cases h0 : l = []
      · simp [chunkAux, h0] at hc
      · by_cases h1 : l.length ≤ maxLen
        · simp [chunkAux, h0, h1] at hc
          subst hc; exact h1
        · simp only [chunkAux, if_neg h0, if_neg h1, List.mem_cons] at hc
          rcases hc with rfl | hc
          · simp [List.length_take]
          · exact ih _ c hc

/-- Helper: dropping the leading `overlap` characters of every emitted
window and concatenating gives the input minus its own first `overlap`
characters. -/
theorem chunkAux_flatten_drop (maxLen overlap : Nat) (hov : overlap < maxLen) (fuel : Nat) :
    ∀ (l : List Char), l.length ≤ fuel →
      ((chunkAux maxLen overlap fuel l).map (List.drop overlap)).flatten = l.drop overlap := by
  induction fuel with
  | zero =>
      intro l hl
      have h0 : l = [] := List.eq_nil_of_length_eq_zero (Nat.le_zero.mp hl)
      subst h0; simp [chunkAux]
  | succ fuel ih =>
      intro l hl
      by_cases h0 : l = []
      · subst h0; simp [chunkAux]
      · by_cases h1 : l.length ≤ maxLen
        · simp [chunkAux, h0, h1]
        · have hlen2 : (l.drop (maxLen - overlap)).length ≤ fuel := by
            simp only [List.length_drop]
            omega
          simp only [chunkAux, if_neg h0, if_neg h1, List.map_cons, List.flatten_cons]
          rw [ih _ hlen2, List.drop_take, List.drop_drop]
          have h2 : maxLen - overlap + overlap = overlap + (maxLen - overlap) := by omega
          rw [h2]
          exact List.drop_take_append_drop l overlap (maxLen - overlap)

/-- Helper: reassembling the emitted windows — the first whole, each
later one minus its leading `overlap` characters — rebuilds the input
exactly. -/
theorem chunkAux_unchunk (maxLen overlap : Nat) (hov : overlap < maxLen) (fuel : Nat) :
    ∀ (l : List Char), l.length ≤ fuel →
      unchunk overlap (chunkAux maxLen overlap fuel l) = l := by
  induction fuel with
  | zero =>
      intro l hl
      have h0 : l = [] := List.eq_nil_of_length_eq_zero (Nat.le_zero.mp hl)
      subst h0; simp [chunkAux, unchunk]
  | succ fuel ih =>
      intro l hl
      by_cases h0 : l = []
      · subst h0; simp [chunkAux, unchunk]
      · by_cases h1 : l.length ≤ maxLen
        · simp [chunkAux, h0, h1, unchunk]
        · have hlen2 : (l.drop (maxLen - overlap)).length ≤ fuel := by
            simp only [List.length_drop]
            omega
          simp only [chunkAux, if_neg h0, if_neg h1, unchunk]
          rw [chunkAux_flatten_drop maxLen overlap hov fuel _ hlen2, List.drop_drop]
          have h2 : maxLen - overlap + overlap = maxLen := Nat.sub_add_cancel (Nat.le_of_lt hov)
          rw [h2]
          exact List.take_append_drop maxLen l

/-- C9: `chunk` is deterministic (same input and parameters give the
same chunk sequence); no produced chunk exceeds `maxLen`; for any text
with overlap smaller than the window the chunks reassemble (minus the
overlap duplication) to the original text in order; and empty or
whitespace-only input yields zero chunks, not an error. -/
theorem chunker_spec (maxLen overlap : Nat) (text : List Char) :
    chunk maxLen overlap text = chunk maxLen overlap text ∧
    (∀ c ∈ chunk maxLen overlap text, c.length ≤ maxLen) ∧
    (overlap < maxLen → text.all Char.isWhitespace = false →
      unchunk overlap (chunk maxLen overlap text) = text) ∧
    (text.all Char.isWhitespace = true → chunk maxLen overlap text = []) := by
  refine ⟨rfl, ?_, ?_, ?_⟩
  · intro c hc
    by_cases hw : text.all Char.isWhitespace
    · simp [chunk, hw] at hc
    · simp only [chunk, if_neg hw] at hc
      exact chunkAux_length_le maxLen overlap text.length text c hc
  · intro hov hw
    simp only [chunk, hw, Bool.false_eq_true, if_false]
    exact chunkAux_unchunk maxLen overlap hov text.length text (Nat.le_refl _)
  · intro hw
    simp [chunk, hw]

/-- C9 witness: a concrete six-character text is rebuilt from its
windows (maxLen 4, overlap 1), and a whitespace-only text yields zero
chunks. -/
theorem chunker_spec_witness :
    unchunk 1 (chunk 4 1 ['h', 'e', 'l', 'l', 'o', 'w']) = ['h', 'e', 'l', 'l', 'o', 'w'] ∧
    chunk 4 1 [' ', '\n'] = [] :=
  ⟨(chunker_spec 4 1 ['h', 'e', 'l', 'l', 'o', 'w']).2.2.1 (by decide) (by decide),
   (chunker_spec 4 1 [' ', '\n']).2.2.2 (by decide)⟩

end Chunker

namespace Assist

/-- C4: when the top-1 `qa_questions` hit scores at or above the
acceptance threshold, `assist` returns that QA pair's stored answer as
the suggestion, exactly that one QA pair as the sources (source type
`qa`), the hit's score as the confidence, and performs no search of the
`chunks` namespace. -/
theorem assist_qa_fast_path (qaThreshold minScore : ℚ) (gen : List ChunkHit → String)
    (intent : String) (keywords : List String) (h : QAHit) (chunkHits : List ChunkHit)
    (hsc : qaThreshold ≤ h.score) :
    assist qaThreshold minScore gen intent keywords (some h) chunkHits =
      ⟨⟨intent, h.score, keywords, h.answer, [⟨h.answer, h.score, "qa", h.source_id⟩]⟩,
        false⟩ := by
  simp [assist, hsc, qaSource]

/-- C4 witness: a concrete QA hit at score 0.9 against threshold 0.85
short-circuits. -/
theorem assist_qa_fast_path_witness :
    assist (0.85 : ℚ) 0.3 (fun _ => "g") "意图" ["kw"]
        (some ⟨5, "q", "ans", 0.9⟩) [⟨1, "c", 0.6⟩] =
      ⟨⟨"意图", 0.9, ["kw"], "ans", [⟨"ans", 0.9, "qa", 5⟩]⟩, false⟩ :=
  assist_qa_fast_path 0.85 0.3 (fun _ => "g") "意图" ["kw"] ⟨5, "q", "ans", 0.9⟩
    [⟨1, "c", 0.6⟩] (by norm_num)

/-- C5: on the chunk-search fallback, the `chunks` namespace is
searched; chunks below the minimum score are dropped and the survivors
are the returned sources, in the search's descending-score order; if no
chunk qualifies, the result is the low-confidence explicit no-match
reply with empty sources. -/
theorem assist_fallback_spec (qaThreshold minScore : ℚ) (gen : List ChunkHit → String)
    (intent : String) (keywords : List String)
    (qaTop : Option QAHit) (chunkHits : List ChunkHit)
    (hfb : takesFallback qaThreshold qaTop) :
    (assist qaThreshold minScore gen intent keywords qaTop chunkHits).chunkSearchPerformed
        = true ∧
    (assist qaThreshold minScore gen intent keywords qaTop chunkHits).result.sources =
      (chunkHits.filter (fun c => minScore ≤ c.score)).map chunkSource ∧
    ((chunkHits.map ChunkHit.score).Pairwise (· ≥ ·) →
      (((assist qaThreshold minScore gen intent keywords qaTop chunkHits).result.sources).map
          Source.score).Pairwise (· ≥ ·)) ∧
    (chunkHits.filter (fun c => minScore ≤ c.score) = [] →
      (assist qaThreshold minScore gen intent keywords qaTop chunkHits).result =
        ⟨intent, 0, keywords, noMatchMsg, []⟩) := by
  have hres : assist qaThreshold minScore gen intent keywords qaTop chunkHits =
      ⟨chunkFallback minScore gen intent keywords chunkHits, true⟩ := by
    cases qaTop with
    | none => rfl
    | some h =>
        have hlt := hfb h rfl
        simp [assist, not_le.mpr hlt]
  have hsrc : (chunkFallback minScore gen intent keywords chunkHits).sources =
      (chunkHits.filter (fun c => minScore ≤ c.score)).map chunkSource := by
    rcases heq : chunkHits.filter (fun c => minScore ≤ c.score) with _ | ⟨c, cs⟩ <;>
      simp [chunkFallback, heq]
  rw [hres]
  refine ⟨rfl, hsrc, ?_, ?_⟩
  · intro hp
    have hp2 : chunkHits.Pairwise (fun a b => a.score ≥ b.score) :=
      (List.pairwise_map).mp hp
    have hp3 : (chunkHits.filter (fun c => minScore ≤ c.score)).Pairwise
        (fun a b => a.score ≥ b.score) :=
      List.Pairwise.sublist (List.filter_sublist chunkHits) hp2
    simp only [AssistOutcome.result, hsrc, List.map_map]
    exact (List.pairwise_map).mpr hp3
  · intro hemp
    simp [chunkFallback, hemp]

/-- C5 witness: chunk scores `[0.6, 0.4, 0.2]` against minimum `0.3`
yield exactly the two qualifying sources in descending order; an
all-below-minimum search yields the no-match result. -/
theorem assist_fallback_spec_witness :
    (assist (0.85 : ℚ) 0.3 (fun _ => "g") "i" [] none
        [⟨1, "a", 0.6⟩, ⟨2, "b", 0.4⟩, ⟨3, "c", 0.2⟩]).result.sources =
      [⟨"a", 0.6, "chunk", 1⟩, ⟨"b", 0.4, "chunk", 2⟩] ∧
    (assist (0.85 : ℚ) 0.3 (fun _ => "g") "i" [] none
        [⟨3, "c", 0.2⟩]).result = ⟨"i", 0, [], noMatchMsg, []⟩ := by
  constructor
  · have hth := assist_fallback_spec 0.85 0.3 (fun _ => "g") "i" [] none
        [⟨1, "a", 0.6⟩, ⟨2, "b", 0.4⟩, ⟨3, "c", 0.2⟩] (fun h hh => nomatch hh)
    rw [hth.2.1]
    norm_num [chunkSource]
  · have hth := assist_fallback_spec 0.85 0.3 (fun _ => "g") "i" [] none
        [⟨3, "c", 0.2⟩] (fun h hh => nomatch hh)
    refine hth.2.2.2 ?_
    norm_num

end Assist

namespace Upload

/-- C10: the knowledge-upload UI issues the upload request iff the
chosen file's name ends in `.md`; otherwise it reports the error
message to the user and performs no network request at all. -/
theorem upload_gate_md_only (filename : List Char) :
    ((doUpload filename).requestIssued = true ↔
      ['.', 'm', 'd'].isSuffixOf filename = true) ∧
    (['.', 'm', 'd'].isSuffixOf filename = false →
      doUpload filename =
        { uploadError := some "仅支持 .md 格式文件", requestIssued := false }) := by
  by_cases h : ['.', 'm', 'd'].isSuffixOf filename <;> simp [doUpload, h]

/-- C10 witness: a `.txt` name is rejected with the error message and no
request; a `.md` name issues the request. -/
theorem upload_gate_md_only_witness :
    doUpload ['a', '.', 't', 'x', 't'] =
      { uploadError := some "仅支持 .md 格式文件", requestIssued := false } ∧
    (doUpload ['a', '.', 'm', 'd']).requestIssued = true :=
  ⟨(upload_gate_md_only ['a', '.', 't', 'x', 't']).2 (by decide),
   (upload_gate_md_only ['a', '.', 'm', 'd']).1.mpr (by decide)⟩

end Upload
